import Mathlib

/-!
Shallow embedding of the headsout text-to-csv converter in
`src/C2VSimFG_MapHeads.py` (functions `get_header_from_headsout_file` and
`headsout_to_csv`), together with theorems settling the specification
claims about header extraction and record normalization.

An input stream is modelled as a `List String`, one element per source
line (Python file iteration yields every line, each nonempty since it
keeps its trailing newline; tokenization discards that whitespace).
-/

/-- Python `str.split()` with no arguments over a character list: split on
maximal runs of whitespace, discarding empty pieces.  The accumulator holds
the characters of the current token in reverse. -/
def tokensAux : List Char → List Char → List (List Char)
  | [], acc => if acc.isEmpty then [] else [acc.reverse]
  | c :: cs, acc =>
    if c.isWhitespace then
      (if acc.isEmpty then [] else [acc.reverse]) ++ tokensAux cs []
    else
      tokensAux cs (c :: acc)

/-- Python `line.split()` (no separator argument): whitespace tokenization. -/
def pySplit (s : String) : List String :=
  (tokensAux s.data []).map String.mk

/-- The test `line[0] == '*'` (marker/comment line check).  Lines produced by
Python file iteration are nonempty; an empty string is classified as
non-marker here. -/
def startsWithStar (line : String) : Bool :=
  match line.data with
  | [] => false
  | c :: _ => c == '*'

/-- Python `list.insert(i, a)`: insert `a` before position `i`, clamping to
the end of the list when `i` exceeds the length. -/
def pyInsert (i : Nat) (a : α) (l : List α) : List α :=
  l.take i ++ a :: l.drop i

/-- Python `sep.join(l)`. -/
def joinSep (sep : String) : List String → String
  | [] => ""
  | [x] => x
  | x :: y :: rest => x ++ sep ++ joinSep sep (y :: rest)

/-- Loop of `get_header_from_headsout_file`: `prev` is the Python variable
`previous_line` (`none` while still unassigned).  On the first non-marker
line: if `previous_line` is unassigned, the `NameError` handler returns
`None`; otherwise the previous (marker) line is split and its first token
dropped.  Marker lines update `previous_line`.  Exhausting the stream
returns `None`. -/
def getHeaderAux : List String → Option String → Option (List String)
  | [], _ => none
  | line :: rest, prev =>
    if startsWithStar line then
      getHeaderAux rest (some line)
    else
      match prev with
      | none => none
      | some p => some ((pySplit p).drop 1)

/-- `get_header_from_headsout_file` from the source: the row above the first
row of data, as a list, minus its first token. -/
def get_header_from_headsout_file (lines : List String) : Option (List String) :=
  getHeaderAux lines none

/-- Failure modes of the normalization loop in `headsout_to_csv`.
`recordShapeError i` is the `ValueError('line {} in file ...'.format(i+1))`
raised for a bad token count (it carries the 1-based line number);
`sequenceError` is the unbound-local failure of `layer += 1` (and of the
`date` lookup) when a continuation line arrives before any full line;
`indexError` is the `line_list[0]` failure on an empty token list (reachable
only when `num_columns = 0`). -/
inductive ConvError where
  | recordShapeError (lineNum : Nat) : ConvError
  | sequenceError : ConvError
  | indexError : ConvError
deriving DecidableEq, Repr

/-- One iteration of the `headsout_to_csv` loop body on line `line` with
0-based index `i` (from `enumerate`).  The state is `none` before any full
record has been seen, and `some (layer, date)` afterwards.  Returns the new
state and the emitted record (`none` for a skipped marker line). -/
def normStep (n : Nat) (st : Option (Nat × String)) (i : Nat) (line : String) :
    Except ConvError (Option (Nat × String) × Option (List String)) :=
  if startsWithStar line then
    Except.ok (st, none)
  else
    let toks := pySplit line
    if toks.length = n then
      match toks with
      | [] => Except.error ConvError.indexError
      | d :: _ => Except.ok (some (1, d), some (pyInsert 1 (toString (1 : Nat)) toks))
    else if toks.length + 1 = n then
      match st with
      | none => Except.error ConvError.sequenceError
      | some (layer, date) =>
          Except.ok (some (layer + 1, date),
            some (pyInsert 1 (toString (layer + 1)) (date :: toks)))
    else
      Except.error (ConvError.recordShapeError (i + 1))

/-- The whole normalization loop of `headsout_to_csv` over the enumerated
lines: returns the records written (in order), the final `(layer, date)`
state, and the error that stopped the loop, if any.  On an error nothing is
written for the offending line and the loop stops. -/
def normRun (n : Nat) : List (Nat × String) → Option (Nat × String) →
    List (List String) × Option (Nat × String) × Option ConvError
  | [], st => ([], st, none)
  | (i, line) :: rest, st =>
    match normStep n st i line with
    | Except.error e => ([], st, some e)
    | Except.ok (st2, none) => normRun n rest st2
    | Except.ok (st2, some r) =>
        ((r :: (normRun n rest st2).1), (normRun n rest st2).2)

/-- Result of a `headsout_to_csv` run: the header row actually written
(field names with `Layer` inserted at position 1), the data records written,
and the error that aborted the loop, if any. -/
structure ConvResult where
  headerOut : List String
  records : List (List String)
  error : Option ConvError
deriving DecidableEq, Repr

/-- `headsout_to_csv` from the source.  Header extraction runs first and
`num_columns` is the length of the extracted header (before the `Layer`
insertion).  Returns `none` when header extraction returned `None` (Python
then dies with a `TypeError` on `len(None)`). -/
def headsout_to_csv (lines : List String) : Option ConvResult :=
  match get_header_from_headsout_file lines with
  | none => none
  | some hdr =>
      some { headerOut := pyInsert 1 "Layer" hdr
             records := (normRun hdr.length lines.enum none).1
             error := (normRun hdr.length lines.enum none).2.2 }

/-- The text written to the csv file: `','.join(header)` first, then for
each record a newline followed by `','.join(record)` (mirroring the write
sequence of the source). -/
def csvContent (res : ConvResult) : String :=
  List.foldl (fun acc r => acc ++ "\n" ++ joinSep "," r)
    (joinSep "," res.headerOut) res.records

/-- The data lines of the enumerated stream that the normalization loop
accepts (one emitted record each), given the flag `seen` mirroring whether
the running `(layer, date)` state is already set: markers are skipped, a
full-shaped line is accepted when `n > 0` (when `n = 0` its `line_list[0]`
lookup fails), a continuation-shaped line is accepted when a full record was
seen earlier, and the scan stops at the first failing line. -/
def acceptedOf (n : Nat) : List (Nat × String) → Bool → List String
  | [], _ => []
  | (_, line) :: rest, seen =>
    if startsWithStar line then acceptedOf n rest seen
    else if (pySplit line).length = n then
      if 0 < n then line :: acceptedOf n rest true else []
    else if (pySplit line).length + 1 = n then
      if seen then line :: acceptedOf n rest seen else []
    else []

/-- Modelled from the spec's words (run-length layer rule): the layer number
resets to 1 at each Full record (token count `= n`) and increments by
exactly 1 from the immediately preceding record at each Continuation
record; `p` is the layer of the preceding record. -/
def specRunLengthLayers (n : Nat) : Nat → List String → List Nat
  | _, [] => []
  | p, line :: rest =>
    if (pySplit line).length = n then 1 :: specRunLengthLayers n 1 rest
    else (p + 1) :: specRunLengthLayers n (p + 1) rest

/-- The layer component of the running state (`0` when unset; that value is
never consulted, since the first accepted record is always full). -/
def initLayer : Option (Nat × String) → Nat
  | none => 0
  | some p => p.1

/-- The date/identifier component of the running state. -/
def identOf : Option (Nat × String) → Option String
  | none => none
  | some p => some p.2

/-- Correspondence between the accepted data lines and the emitted records,
threading the inherited identifier `d`: a full line's record, minus the
synthetic Layer field at position 1, is exactly the line's token sequence,
and it makes its leading token the identifier inherited by what follows; a
continuation line's record, minus the Layer field, is the inherited
identifier prepended to the line's token sequence, the identifier being
passed on unchanged. -/
inductive RecMatch (n : Nat) : Option String → List String → List (List String) → Prop
  | nil (d : Option String) : RecMatch n d [] []
  | full (d : Option String) (line : String) (r : List String) (rest : List String)
      (rs : List (List String)) (hlen : (pySplit line).length = n)
      (hr : r.eraseIdx 1 = pySplit line)
      (htail : RecMatch n (pySplit line).head? rest rs) :
      RecMatch n d (line :: rest) (r :: rs)
  | cont (d : String) (line : String) (r : List String) (rest : List String)
      (rs : List (List String)) (hlen : (pySplit line).length + 1 = n)
      (hr : r.eraseIdx 1 = d :: pySplit line)
      (htail : RecMatch n (some d) rest rs) :
      RecMatch n (some d) (line :: rest) (r :: rs)

theorem pyInsert_one (x d : α) (t : List α) : pyInsert 1 x (d :: t) = d :: x :: t := rfl

theorem normStep_marker (n : Nat) (st : Option (Nat × String)) (i : Nat) (line : String)
    (hm : startsWithStar line = true) : normStep n st i line = Except.ok (st, none) := by
  simp [normStep, hm]

theorem normStep_full (n : Nat) (st : Option (Nat × String)) (i : Nat) (line : String)
    (d : String) (t : List String)
    (hm : startsWithStar line = false) (htoks : pySplit line = d :: t)
    (hlen : (pySplit line).length = n) :
    normStep n st i line
      = Except.ok (some (1, d), some (pyInsert 1 (toString (1 : Nat)) (d :: t))) := by
  rw [← hlen]
  simp [normStep, hm, htoks]

theorem normStep_full_empty (n : Nat) (st : Option (Nat × String)) (i : Nat) (line : String)
    (hm : startsWithStar line = false) (htoks : pySplit line = [])
    (hlen : (pySplit line).length = n) :
    normStep n st i line = Except.error ConvError.indexError := by
  rw [← hlen]
  simp [normStep, hm, htoks]

theorem normStep_cont (n : Nat) (l : Nat) (d : String) (i : Nat) (line : String)
    (hm : startsWithStar line = false) (hne : (pySplit line).length ≠ n)
    (hlen : (pySplit line).length + 1 = n) :
    normStep n (some (l, d)) i line
      = Except.ok (some (l + 1, d), some (pyInsert 1 (toString (l + 1)) (d :: pySplit line))) := by
  simp [normStep, hm, hne, hlen]

theorem normStep_cont_orphan (n : Nat) (i : Nat) (line : String)
    (hm : startsWithStar line = false) (hne : (pySplit line).length ≠ n)
    (hlen : (pySplit line).length + 1 = n) :
    normStep n none i line = Except.error ConvError.sequenceError := by
  simp [normStep, hm, hne, hlen]

theorem normStep_shape (n : Nat) (st : Option (Nat × String)) (i : Nat) (line : String)
    (hm : startsWithStar line = false) (h1 : (pySplit line).length ≠ n)
    (h2 : (pySplit line).length + 1 ≠ n) :
    normStep n st i line = Except.error (ConvError.recordShapeError (i + 1)) := by
  simp [normStep, hm, h1, h2]

theorem normRun_cons_err (n : Nat) (i : Nat) (line : String) (rest : List (Nat × String))
    (st : Option (Nat × String)) (e : ConvError)
    (h : normStep n st i line = Except.error e) :
    normRun n ((i, line) :: rest) st = ([], st, some e) := by
  simp [normRun, h]

theorem normRun_cons_skip (n : Nat) (i : Nat) (line : String) (rest : List (Nat × String))
    (st st2 : Option (Nat × String))
    (h : normStep n st i line = Except.ok (st2, none)) :
    normRun n ((i, line) :: rest) st = normRun n rest st2 := by
  simp [normRun, h]

theorem normRun_cons_rec (n : Nat) (i : Nat) (line : String) (rest : List (Nat × String))
    (st st2 : Option (Nat × String)) (r : List String)
    (h : normStep n st i line = Except.ok (st2, some r)) :
    normRun n ((i, line) :: rest) st
      = (r :: (normRun n rest st2).1, (normRun n rest st2).2) := by
  simp [normRun, h]

theorem normRun_layers (n : Nat) (ls : List (Nat × String)) (st : Option (Nat × String)) :
    (normRun n ls st).1.map (fun r => r.get? 1)
      = (specRunLengthLayers n (initLayer st) (acceptedOf n ls st.isSome)).map
          (fun x => some (toString x)) := by
  induction ls generalizing st with
  | nil => rfl
  | cons p rest ih =>
    obtain ⟨i, line⟩ := p
    cases hm : startsWithStar line with
    | true =>
      rw [normRun_cons_skip n i line rest st st (normStep_marker n st i line hm)]
      rw [show acceptedOf n ((i, line) :: rest) st.isSome = acceptedOf n rest st.isSome from
        by simp [acceptedOf, hm]]
      exact ih st
    | false =>
      by_cases hful : (pySplit line).length = n
      · cases htoks : pySplit line with
        | nil =>
          have hn : n = 0 := by rw [htoks] at hful; simpa using hful.symm
          rw [normRun_cons_err n i line rest st ConvError.indexError
            (normStep_full_empty n st i line hm htoks hful)]
          rw [show acceptedOf n ((i, line) :: rest) st.isSome = [] from
            by simp [acceptedOf, hm, hful, hn]]
          rfl
        | cons d t =>
          have hpos : 0 < n := by rw [htoks] at hful; simp at hful; omega
          rw [normRun_cons_rec n i line rest st (some (1, d))
            (pyInsert 1 (toString (1 : Nat)) (d :: t))
            (normStep_full n st i line d t hm htoks hful)]
          rw [show acceptedOf n ((i, line) :: rest) st.isSome
              = line :: acceptedOf n rest true from by simp [acceptedOf, hm, hful, hpos]]
          rw [show specRunLengthLayers n (initLayer st) (line :: acceptedOf n rest true)
              = 1 :: specRunLengthLayers n 1 (acceptedOf n rest true) from
            by simp [specRunLengthLayers, hful]]
          rw [List.map_cons, List.map_cons, pyInsert_one]
          refine congrArg₂ _ rfl ?_
          simpa [initLayer] using ih (some (1, d))
      · by_cases hcont : (pySplit line).length + 1 = n
        · cases st with
          | none =>
            rw [normRun_cons_err n i line rest none ConvError.sequenceError
              (normStep_cont_orphan n i line hm hful hcont)]
            rw [show acceptedOf n ((i, line) :: rest) (none : Option (Nat × String)).isSome = []
              from by simp [acceptedOf, hm, hful, hcont]]
            rfl
          | some pr =>
            obtain ⟨l, d⟩ := pr
            rw [normRun_cons_rec n i line rest (some (l, d)) (some (l + 1, d))
              (pyInsert 1 (toString (l + 1)) (d :: pySplit line))
              (normStep_cont n l d i line hm hful hcont)]
            rw [show acceptedOf n ((i, line) :: rest) (some (l, d) : Option (Nat × String)).isSome
                = line :: acceptedOf n rest true from by simp [acceptedOf, hm, hful, hcont]]
            rw [show specRunLengthLayers n (initLayer (some (l, d)))
                  (line :: acceptedOf n rest true)
                = (l + 1) :: specRunLengthLayers n (l + 1) (acceptedOf n rest true) from
              by simp [specRunLengthLayers, hful, initLayer]]
            rw [List.map_cons, List.map_cons, pyInsert_one]
            refine congrArg₂ _ rfl ?_
            simpa [initLayer] using ih (some (l + 1, d))
        · rw [normRun_cons_err n i line rest st (ConvError.recordShapeError (i + 1))
            (normStep_shape n st i line hm hful hcont)]
          rw [show acceptedOf n ((i, line) :: rest) st.isSome = [] from
            by simp [acceptedOf, hm, hful, hcont]]
          rfl

theorem recMatch_normRun (n : Nat) (ls : List (Nat × String)) (st : Option (Nat × String)) :
    RecMatch n (identOf st) (acceptedOf n ls st.isSome) (normRun n ls st).1 := by
  induction ls generalizing st with
  | nil => exact RecMatch.nil _
  | cons p rest ih =>
    obtain ⟨i, line⟩ := p
    cases hm : startsWithStar line with
    | true =>
      rw [normRun_cons_skip n i line rest st st (normStep_marker n st i line hm)]
      rw [show acceptedOf n ((i, line) :: rest) st.isSome = acceptedOf n rest st.isSome from
        by simp [acceptedOf, hm]]
      exact ih st
    | false =>
      by_cases hful : (pySplit line).length = n
      · cases htoks : pySplit line with
        | nil =>
          have hn : n = 0 := by rw [htoks] at hful; simpa using hful.symm
          rw [normRun_cons_err n i line rest st ConvError.indexError
            (normStep_full_empty n st i line hm htoks hful)]
          rw [show acceptedOf n ((i, line) :: rest) st.isSome = [] from
            by simp [acceptedOf, hm, hful, hn]]
          exact RecMatch.nil _
        | cons d t =>
          have hpos : 0 < n := by rw [htoks] at hful; simp at hful; omega
          rw [normRun_cons_rec n i line rest st (some (1, d))
            (pyInsert 1 (toString (1 : Nat)) (d :: t))
            (normStep_full n st i line d t hm htoks hful)]
          rw [show acceptedOf n ((i, line) :: rest) st.isSome
              = line :: acceptedOf n rest true from by simp [acceptedOf, hm, hful, hpos]]
          refine RecMatch.full _ _ _ _ _ hful ?_ ?_
          · rw [htoks, pyInsert_one]; rfl
          · rw [htoks]
            simpa [identOf] using ih (some (1, d))
      · by_cases hcont : (pySplit line).length + 1 = n
        · cases st with
          | none =>
            rw [normRun_cons_err n i line rest none ConvError.sequenceError
              (normStep_cont_orphan n i line hm hful hcont)]
            rw [show acceptedOf n ((i, line) :: rest) (none : Option (Nat × String)).isSome = []
              from by simp [acceptedOf, hm, hful, hcont]]
            exact RecMatch.nil _
          | some pr =>
            obtain ⟨l, d⟩ := pr
            rw [normRun_cons_rec n i line rest (some (l, d)) (some (l + 1, d))
              (pyInsert 1 (toString (l + 1)) (d :: pySplit line))
              (normStep_cont n l d i line hm hful hcont)]
            rw [show acceptedOf n ((i, line) :: rest) (some (l, d) : Option (Nat × String)).isSome
                = line :: acceptedOf n rest true from by simp [acceptedOf, hm, hful, hcont]]
            show RecMatch n (some d) _ _
            refine RecMatch.cont d line _ _ _ hcont ?_ ?_
            · rw [pyInsert_one]; rfl
            · simpa [identOf] using ih (some (l + 1, d))
        · rw [normRun_cons_err n i line rest st (ConvError.recordShapeError (i + 1))
            (normStep_shape n st i line hm hful hcont)]
          rw [show acceptedOf n ((i, line) :: rest) st.isSome = [] from
            by simp [acceptedOf, hm, hful, hcont]]
          exact RecMatch.nil _

theorem normRun_append_of_ok (n : Nat) (xs ys : List (Nat × String)) (st : Option (Nat × String))
    (h : (normRun n xs st).2.2 = none) :
    normRun n (xs ++ ys) st
      = ((normRun n xs st).1 ++ (normRun n ys (normRun n xs st).2.1).1,
         (normRun n ys (normRun n xs st).2.1).2) := by
  induction xs generalizing st with
  | nil => simp [normRun]
  | cons p rest ih =>
    obtain ⟨i, line⟩ := p
    cases hstep : normStep n st i line with
    | error e =>
      rw [normRun_cons_err n i line rest st e hstep] at h
      simp at h
    | ok pr =>
      obtain ⟨st2, r?⟩ := pr
      cases r? with
      | none =>
        rw [normRun_cons_skip n i line rest st st2 hstep] at h
        rw [List.cons_append, normRun_cons_skip n i line (rest ++ ys) st st2 hstep,
          normRun_cons_skip n i line rest st st2 hstep]
        exact ih st2 h
      | some r =>
        rw [normRun_cons_rec n i line rest st st2 r hstep] at h
        simp only [] at h
        rw [List.cons_append, normRun_cons_rec n i line (rest ++ ys) st st2 r hstep,
          normRun_cons_rec n i line rest st st2 r hstep]
        rw [ih st2 h]
        simp

theorem normRun_markers (n : Nat) (pre : List String) (k : Nat) (st : Option (Nat × String))
    (h : ∀ l ∈ pre, startsWithStar l = true) :
    normRun n (List.enumFrom k pre) st = ([], st, none) := by
  induction pre generalizing k with
  | nil => rfl
  | cons l pre ih =>
    rw [List.enumFrom_cons,
      normRun_cons_skip n k l _ st st (normStep_marker n st k l (h l (List.mem_cons_self l pre)))]
    exact ih (k + 1) (fun x hx => h x (List.mem_cons_of_mem l hx))

theorem acceptedOf_eq_filter (n : Nat) (ls : List (Nat × String)) (st : Option (Nat × String))
    (h : (normRun n ls st).2.2 = none) :
    acceptedOf n ls st.isSome = (ls.map Prod.snd).filter (fun l => !startsWithStar l) := by
  induction ls generalizing st with
  | nil => rfl
  | cons p rest ih =>
    obtain ⟨i, line⟩ := p
    cases hm : startsWithStar line with
    | true =>
      rw [normRun_cons_skip n i line rest st st (normStep_marker n st i line hm)] at h
      simp only [List.map_cons, List.filter_cons, hm]
      rw [show acceptedOf n ((i, line) :: rest) st.isSome = acceptedOf n rest st.isSome from
        by simp [acceptedOf, hm]]
      simpa using ih st h
    | false =>
      by_cases hful : (pySplit line).length = n
      · cases htoks : pySplit line with
        | nil =>
          rw [normRun_cons_err n i line rest st ConvError.indexError
            (normStep_full_empty n st i line hm htoks hful)] at h
          simp at h
        | cons d t =>
          have hpos : 0 < n := by rw [htoks] at hful; simp at hful; omega
          rw [normRun_cons_rec n i line rest st (some (1, d))
            (pyInsert 1 (toString (1 : Nat)) (d :: t))
            (normStep_full n st i line d t hm htoks hful)] at h
          simp only [] at h
          rw [show acceptedOf n ((i, line) :: rest) st.isSome
              = line :: acceptedOf n rest true from by simp [acceptedOf, hm, hful, hpos]]
          simp only [List.map_cons, List.filter_cons, hm]
          simpa using ih (some (1, d)) h
      · by_cases hcont : (pySplit line).length + 1 = n
        · cases st with
          | none =>
            rw [normRun_cons_err n i line rest none ConvError.sequenceError
              (normStep_cont_orphan n i line hm hful hcont)] at h
            simp at h
          | some pr =>
            obtain ⟨l, d⟩ := pr
            rw [normRun_cons_rec n i line rest (some (l, d)) (some (l + 1, d))
              (pyInsert 1 (toString (l + 1)) (d :: pySplit line))
              (normStep_cont n l d i line hm hful hcont)] at h
            simp only [] at h
            rw [show acceptedOf n ((i, line) :: rest) (some (l, d) : Option (Nat × String)).isSome
                = line :: acceptedOf n rest true from by simp [acceptedOf, hm, hful, hcont]]
            simp only [List.map_cons, List.filter_cons, hm]
            simpa using ih (some (l + 1, d)) h
        · rw [normRun_cons_err n i line rest st (ConvError.recordShapeError (i + 1))
            (normStep_shape n st i line hm hful hcont)] at h
          simp at h

theorem mem_of_mem_acceptedOf (n : Nat) (ls : List (Nat × String)) (seen : Bool) (l : String)
    (h : l ∈ acceptedOf n ls seen) :
    l ∈ ls.map Prod.snd ∧ startsWithStar l = false := by
  induction ls generalizing seen with
  | nil => simp [acceptedOf] at h
  | cons p rest ih =>
    obtain ⟨i, line⟩ := p
    cases hm : startsWithStar line with
    | true =>
      rw [show acceptedOf n ((i, line) :: rest) seen = acceptedOf n rest seen from
        by simp [acceptedOf, hm]] at h
      have := ih seen h
      exact ⟨by simp [this.1], this.2⟩
    | false =>
      by_cases hful : (pySplit line).length = n
      · by_cases hpos : 0 < n
        · rw [show acceptedOf n ((i, line) :: rest) seen = line :: acceptedOf n rest true from
            by simp [acceptedOf, hm, hful, hpos]] at h
          rcases List.mem_cons.mp h with h1 | h2
          · subst h1; exact ⟨by simp, hm⟩
          · have := ih true h2
            exact ⟨by simp [this.1], this.2⟩
        · rw [show acceptedOf n ((i, line) :: rest) seen = [] from
            by simp [acceptedOf, hm, hful, hpos]] at h
          simp at h
      · by_cases hcont : (pySplit line).length + 1 = n
        · cases seen with
          | false =>
            rw [show acceptedOf n ((i, line) :: rest) false = [] from
              by simp [acceptedOf, hm, hful, hcont]] at h
            simp at h
          | true =>
            rw [show acceptedOf n ((i, line) :: rest) true = line :: acceptedOf n rest true from
              by simp [acceptedOf, hm, hful, hcont]] at h
            rcases List.mem_cons.mp h with h1 | h2
            · subst h1; exact ⟨by simp, hm⟩
            · have := ih true h2
              exact ⟨by simp [this.1], this.2⟩
        · rw [show acceptedOf n ((i, line) :: rest) seen = [] from
            by simp [acceptedOf, hm, hful, hcont]] at h
          simp at h

theorem specRunLengthLayers_all_one (n : Nat) (acc : List String) (p : Nat)
    (h : ∀ l ∈ acc, (pySplit l).length = n) :
    ∀ x ∈ specRunLengthLayers n p acc, x = 1 := by
  induction acc generalizing p with
  | nil => simp [specRunLengthLayers]
  | cons l acc ih =>
    have hl := h l (List.mem_cons_self l acc)
    rw [show specRunLengthLayers n p (l :: acc) = 1 :: specRunLengthLayers n 1 acc from
      by simp [specRunLengthLayers, hl]]
    intro x hx
    rcases List.mem_cons.mp hx with h1 | h2
    · exact h1
    · exact ih 1 (fun y hy => h y (List.mem_cons_of_mem l hy)) x h2

theorem recMatch_forall2 {n : Nat} {d : Option String} {acc : List String}
    {rs : List (List String)} (h : RecMatch n d acc rs) :
    List.Forall₂ (fun l r => r.eraseIdx 1 = pySplit l ∨ ∃ x, r.eraseIdx 1 = x :: pySplit l)
      acc rs := by
  induction h with
  | nil d => exact List.Forall₂.nil
  | full d line r rest rs hlen hr htail ih => exact List.Forall₂.cons (Or.inl hr) ih
  | cont d line r rest rs hlen hr htail ih => exact List.Forall₂.cons (Or.inr ⟨d, hr⟩) ih

theorem joinSep_glue (s x y : String) (t : List String) :
    joinSep s ((x ++ s ++ y) :: t) = joinSep s (x :: y :: t) := by
  cases t with
  | nil => rfl
  | cons z t => simp [joinSep, String.append_assoc]

theorem foldl_joinSep (rs : List (List String)) (x : String) :
    List.foldl (fun acc r => acc ++ "\n" ++ joinSep "," r) x rs
      = joinSep "\n" (x :: rs.map (joinSep ",")) := by
  induction rs generalizing x with
  | nil => rfl
  | cons r rs ih =>
    rw [List.foldl_cons, ih (x ++ "\n" ++ joinSep "," r), List.map_cons, joinSep_glue]

theorem tokensAux_all_ws (cs : List Char) (h : ∀ c ∈ cs, c.isWhitespace) :
    tokensAux cs [] = [] := by
  induction cs with
  | nil => rfl
  | cons c cs ih =>
    have hc := h c (List.mem_cons_self c cs)
    simp only [tokensAux, hc, if_true, List.isEmpty_nil, if_pos, List.nil_append]
    exact ih (fun x hx => h x (List.mem_cons_of_mem c hx))

theorem pySplit_all_ws (line : String) (h : ∀ c ∈ line.data, c.isWhitespace) :
    pySplit line = [] := by
  unfold pySplit
  rw [tokensAux_all_ws line.data h]
  rfl

theorem startsWithStar_ws (line : String) (h : ∀ c ∈ line.data, c.isWhitespace) :
    startsWithStar line = false := by
  unfold startsWithStar
  cases hd : line.data with
  | nil => rfl
  | cons c cs =>
    have hc : c.isWhitespace := h c (by rw [hd]; exact List.mem_cons_self c cs)
    cases hq : c == '*' with
    | false => exact hq
    | true =>
      have hceq : c = '*' := by exact beq_iff_eq.mp hq
      rw [hceq] at hc
      exact absurd hc (by decide)

theorem getHeaderAux_markers (lines : List String) (h : ∀ l ∈ lines, startsWithStar l = true) :
    ∀ prev, getHeaderAux lines prev = none := by
  induction lines with
  | nil => intro prev; rfl
  | cons l rest ih =>
    intro prev
    have hl := h l (List.mem_cons_self l rest)
    rw [show getHeaderAux (l :: rest) prev = getHeaderAux rest (some l) from
      by simp [getHeaderAux, hl]]
    exact ih (fun x hx => h x (List.mem_cons_of_mem l hx)) (some l)

/-- C1: for every input stream and schema width `n`, the Layer fields of the
emitted records follow the run-length rule: a Full line (token count `= n`)
yields Layer 1 and a Continuation line (token count `= n - 1`) yields a
Layer exactly one greater than the immediately preceding record's, as
computed by `specRunLengthLayers`; in particular, when every data line of
the stream is Full, every emitted record has Layer `"1"` (position 1 of the
record). -/
theorem C1_layer_run_length (n : Nat) (lines : List String) :
    (normRun n lines.enum none).1.map (fun r => r.get? 1)
      = (specRunLengthLayers n 0 (acceptedOf n lines.enum false)).map
          (fun x => some (toString x))
    ∧ ((∀ l ∈ lines, startsWithStar l = false → (pySplit l).length = n) →
        ∀ r ∈ (normRun n lines.enum none).1, r.get? 1 = some "1") := by
  have hmain := normRun_layers n lines.enum none
  constructor
  · exact hmain
  · intro hall r hr
    have h1 : r.get? 1 ∈ (normRun n lines.enum none).1.map (fun r => r.get? 1) :=
      List.mem_map_of_mem _ hr
    rw [hmain] at h1
    obtain ⟨x, hx, hxr⟩ := List.mem_map.mp h1
    have hx1 : x = 1 := by
      refine specRunLengthLayers_all_one n _ 0 ?_ x hx
      intro l hl
      have hmem := mem_of_mem_acceptedOf n lines.enum false l hl
      have hlin : l ∈ lines := by
        have h2 := hmem.1
        rwa [List.enum_map_snd] at h2
      exact hall l hlin hmem.2
    rw [← hxr, hx1]
    rfl

/-- C1 witness: a stream whose data lines are all Full (token count 3)
yields Layer `"1"` on every record. -/
theorem C1_layer_run_length_witness :
    ∀ r ∈ (normRun 3 ["*x", "01/01 1.0 2.0", "01/02 3.0 4.0"].enum none).1,
      r.get? 1 = some "1" :=
  (C1_layer_run_length 3 ["*x", "01/01 1.0 2.0", "01/02 3.0 4.0"]).2 (by decide)

/-- C2 counterexample: on the literal scenario input, `"* 1 DATE NODE1
NODE2".split()` is `["*", "1", "DATE", "NODE1", "NODE2"]`, so dropping only
the first token keeps the `"1"`: header extraction returns
`["1","DATE","NODE1","NODE2"]` (not `["DATE","NODE1","NODE2"]`),
`num_columns` is 4, the single 3-token data line is then an orphan
continuation, and the conversion fails instead of emitting the claimed
record. -/
theorem C2_scenario_counterexample :
    get_header_from_headsout_file ["* 1 DATE NODE1 NODE2", "01/01/2000_0000 1.1 2.2"]
        = some ["1", "DATE", "NODE1", "NODE2"]
    ∧ get_header_from_headsout_file ["* 1 DATE NODE1 NODE2", "01/01/2000_0000 1.1 2.2"]
        ≠ some ["DATE", "NODE1", "NODE2"]
    ∧ headsout_to_csv ["* 1 DATE NODE1 NODE2", "01/01/2000_0000 1.1 2.2"]
        = some ⟨["1", "Layer", "DATE", "NODE1", "NODE2"], [], some ConvError.sequenceError⟩ :=
  ⟨by decide, by decide, by decide⟩

/-- C2 amended: with the column-label token attached to the marker (header
line `"*1 DATE NODE1 NODE2"`), header extraction returns
`["DATE","NODE1","NODE2"]` and the single Full data line yields the record
`["01/01/2000_0000","1","1.1","2.2"]` under the emitted header
`["DATE","Layer","NODE1","NODE2"]`. -/
theorem C2_amended_scenario :
    get_header_from_headsout_file ["*1 DATE NODE1 NODE2", "01/01/2000_0000 1.1 2.2"]
        = some ["DATE", "NODE1", "NODE2"]
    ∧ headsout_to_csv ["*1 DATE NODE1 NODE2", "01/01/2000_0000 1.1 2.2"]
        = some ⟨["DATE", "Layer", "NODE1", "NODE2"],
            [["01/01/2000_0000", "1", "1.1", "2.2"]], none⟩ :=
  ⟨by decide, by decide⟩

/-- C3: when the loop reaches (all earlier lines processed without error) a
non-marker line whose token count is neither `n` nor `n - 1`, it fails with
the record-shape error carrying the 1-based line number of that line,
counted over all source lines, marker lines included. -/
theorem C3_record_shape_error (pre post : List String) (line : String) (n : Nat)
    (hm : startsWithStar line = false)
    (h1 : (pySplit line).length ≠ n) (h2 : (pySplit line).length + 1 ≠ n)
    (hpre : (normRun n pre.enum none).2.2 = none) :
    (normRun n ((pre ++ line :: post).enum) none).2.2
      = some (ConvError.recordShapeError (pre.length + 1)) := by
  rw [List.enum_append, List.enumFrom_cons]
  rw [normRun_append_of_ok n pre.enum _ none hpre]
  rw [normRun_cons_err n pre.length line _ _ _
    (normStep_shape n _ pre.length line hm h1 h2)]

/-- C3 witness: a 3-token line after one marker line, with `n = 2`, fails
with the shape error at 1-based line number 2. -/
theorem C3_record_shape_error_witness :
    (normRun 2 ((["* h"] ++ "a b c" :: []).enum) none).2.2
      = some (ConvError.recordShapeError 2) :=
  C3_record_shape_error ["* h"] [] "a b c" 2 (by decide) (by decide) (by decide) (by decide)

/-- C4: a continuation-shaped line (token count `= n - 1`) whose preceding
lines are all marker lines — so it is the first data-bearing line, with no
Full record anywhere earlier — makes the normalizer fail with the sequence
error (in the source, the unbound `layer`/`date` locals). -/
theorem C4_orphan_continuation (pre post : List String) (line : String) (n : Nat)
    (hpre : ∀ l ∈ pre, startsWithStar l = true)
    (hm : startsWithStar line = false)
    (hlen : (pySplit line).length + 1 = n) :
    (normRun n ((pre ++ line :: post).enum) none).2.2 = some ConvError.sequenceError := by
  have hne : (pySplit line).length ≠ n := by omega
  have hrun : normRun n pre.enum none = ([], none, none) := by
    rw [show pre.enum = List.enumFrom 0 pre from rfl]
    exact normRun_markers n pre 0 none hpre
  have hpre0 : (normRun n pre.enum none).2.2 = none := by rw [hrun]
  rw [List.enum_append, List.enumFrom_cons]
  rw [normRun_append_of_ok n pre.enum _ none hpre0]
  have hst : (normRun n pre.enum none).2.1 = none := by rw [hrun]
  rw [hst]
  rw [normRun_cons_err n pre.length line _ none _
    (normStep_cont_orphan n pre.length line hm hne hlen)]

/-- C4 witness: a 1-token first data line with `n = 2` after one comment
line fails with the sequence error. -/
theorem C4_orphan_continuation_witness :
    (normRun 2 ((["*c"] ++ "5" :: []).enum) none).2.2 = some ConvError.sequenceError :=
  C4_orphan_continuation ["*c"] [] "5" 2 (by decide) (by decide) (by decide)

/-- C5: round-trip — the accepted data lines and the emitted records match
one to one, in order: a Full line's record minus the synthetic Layer field
at position 1 is exactly the line's whitespace token sequence, and a
Continuation line's record minus the Layer field is the inherited
identifier (threaded through `RecMatch` from the most recent Full line)
prepended to the line's token sequence. -/
theorem C5_roundtrip (n : Nat) (lines : List String) :
    RecMatch n none (acceptedOf n lines.enum false) (normRun n lines.enum none).1 :=
  recMatch_normRun n lines.enum none

/-- C6: output discipline — the written text is the comma-joined header
(field names with `Layer` inserted at position 1), exactly once, as the
first newline-separated line, followed by one comma-joined record per
accepted non-marker input line, in input order (no quoting or escaping:
records are plain comma joins). -/
theorem C6_output_discipline (lines : List String) (res : ConvResult)
    (h : headsout_to_csv lines = some res) (he : res.error = none) :
    csvContent res
      = joinSep "\n" (joinSep "," res.headerOut :: res.records.map (joinSep ","))
    ∧ ∃ hdr, get_header_from_headsout_file lines = some hdr
        ∧ res.headerOut = pyInsert 1 "Layer" hdr
        ∧ List.Forall₂
            (fun l r => r.eraseIdx 1 = pySplit l ∨ ∃ x, r.eraseIdx 1 = x :: pySplit l)
            (lines.filter (fun l => !startsWithStar l)) res.records := by
  constructor
  · exact foldl_joinSep res.records (joinSep "," res.headerOut)
  · unfold headsout_to_csv at h
    cases hh : get_header_from_headsout_file lines with
    | none => rw [hh] at h; cases h
    | some hdr =>
      rw [hh] at h
      have hres := Option.some.inj h
      refine ⟨hdr, rfl, ?_, ?_⟩
      · rw [← hres]
      · have herr : (normRun hdr.length lines.enum none).2.2 = none := by
          rw [← hres] at he
          exact he
        have hfil := acceptedOf_eq_filter hdr.length lines.enum none herr
        rw [List.enum_map_snd] at hfil
        have hrm := recMatch_normRun hdr.length lines.enum none
        rw [hfil] at hrm
        have hf2 := recMatch_forall2 hrm
        rw [← hres]
        exact hf2

/-- C6 witness: a concrete three-line stream with one Full and one
Continuation record. -/
theorem C6_output_discipline_witness :
    csvContent ⟨["T", "Layer", "N"], [["t1", "1", "5"], ["t1", "2", "6"]], none⟩
      = joinSep "\n" (joinSep "," ["T", "Layer", "N"]
          :: [["t1", "1", "5"], ["t1", "2", "6"]].map (joinSep ","))
    ∧ ∃ hdr, get_header_from_headsout_file ["*0 T N", "t1 5", "6"] = some hdr
        ∧ ["T", "Layer", "N"] = pyInsert 1 "Layer" hdr
        ∧ List.Forall₂
            (fun l r => r.eraseIdx 1 = pySplit l ∨ ∃ x, r.eraseIdx 1 = x :: pySplit l)
            (["*0 T N", "t1 5", "6"].filter (fun l => !startsWithStar l))
            [["t1", "1", "5"], ["t1", "2", "6"]] :=
  C6_output_discipline ["*0 T N", "t1 5", "6"]
    ⟨["T", "Layer", "N"], [["t1", "1", "5"], ["t1", "2", "6"]], none⟩ (by decide) rfl

/-- C7: header extraction on a stream with no data-bearing line (empty or
all marker lines) returns the no-header signal `none` and never fails. -/
theorem C7_no_data_no_header (lines : List String)
    (h : ∀ l ∈ lines, startsWithStar l = true) :
    get_header_from_headsout_file lines = none :=
  getHeaderAux_markers lines h none

/-- C7 witness: an all-comment stream yields no header. -/
theorem C7_no_data_no_header_witness :
    get_header_from_headsout_file ["* comment", "*2"] = none :=
  C7_no_data_no_header ["* comment", "*2"] (by decide)

/-- C8: atomicity on failure — when the loop errors on a line, the records
written are exactly those of the error-free prefix before that line: no
partial record is emitted for the offending line, and the earlier records
are intact. -/
theorem C8_atomic_failure (pre : List String) (line : String) (post : List String)
    (n : Nat) (e : ConvError)
    (hpre : (normRun n pre.enum none).2.2 = none)
    (herr : normStep n (normRun n pre.enum none).2.1 pre.length line = Except.error e) :
    (normRun n ((pre ++ line :: post).enum) none).1 = (normRun n pre.enum none).1
    ∧ (normRun n ((pre ++ line :: post).enum) none).2.2 = some e := by
  rw [List.enum_append, List.enumFrom_cons]
  rw [normRun_append_of_ok n pre.enum _ none hpre]
  rw [normRun_cons_err n pre.length line _ _ e herr]
  constructor
  · simp
  · rfl

/-- C8 witness: a marker line and a Full line followed by a 3-token line
with `n = 2`: the record of the Full line is kept, nothing is written for
the bad line, the error carries line number 3. -/
theorem C8_atomic_failure_witness :
    (normRun 2 ((["*h", "a 1"] ++ "b c d" :: []).enum) none).1
        = (normRun 2 (["*h", "a 1"].enum) none).1
    ∧ (normRun 2 ((["*h", "a 1"] ++ "b c d" :: []).enum) none).2.2
        = some (ConvError.recordShapeError 3) :=
  C8_atomic_failure ["*h", "a 1"] "b c d" [] 2 (ConvError.recordShapeError 3)
    (by decide) (by rfl)

/-- C9: implicit — when the very first line of the stream is a non-marker
(data-bearing) line, header extraction returns the no-header signal `none`
(the `previous_line` lookup fails with `NameError`, which is caught),
even though the stream contains data. -/
theorem C9_first_line_data_no_header (line : String) (rest : List String)
    (h : startsWithStar line = false) :
    get_header_from_headsout_file (line :: rest) = none := by
  simp [get_header_from_headsout_file, getHeaderAux, h]

/-- C9 witness: a stream starting with a data line has no header, though a
marker line follows. -/
theorem C9_first_line_data_no_header_witness :
    get_header_from_headsout_file ["1 2", "*x"] = none :=
  C9_first_line_data_no_header "1 2" ["*x"] (by decide)

/-- C10: implicit — marker classification looks only at the first
character, so a whitespace-only line (e.g. a bare newline) is a data line;
it tokenizes to zero tokens, hence for every `n ≥ 2` it raises the
record-shape error with the correct 1-based line number, and for `n = 1`
it is treated as a Continuation record (layer increments, the identifier
is inherited). -/
theorem C10_whitespace_line (line : String) (_hne : line.data ≠ [])
    (hws : ∀ c ∈ line.data, c.isWhitespace) :
    startsWithStar line = false
    ∧ pySplit line = []
    ∧ (∀ n : Nat, 2 ≤ n → ∀ (st : Option (Nat × String)) (i : Nat),
        normStep n st i line = Except.error (ConvError.recordShapeError (i + 1)))
    ∧ (∀ (l : Nat) (d : String) (i : Nat),
        normStep 1 (some (l, d)) i line
          = Except.ok (some (l + 1, d), some [d, toString (l + 1)])) := by
  have hm := startsWithStar_ws line hws
  have hsp := pySplit_all_ws line hws
  have hlen0 : (pySplit line).length = 0 := by rw [hsp]; rfl
  refine ⟨hm, hsp, ?_, ?_⟩
  · intro n hn st i
    exact normStep_shape n st i line hm (by omega) (by omega)
  · intro l d i
    have h := normStep_cont 1 l d i line hm (by omega) (by omega)
    rw [h, hsp]
    rfl

/-- C10 witness: the bare-newline line at `n = 2` and `n = 1`. -/
theorem C10_whitespace_line_witness :
    startsWithStar "\n" = false ∧ pySplit "\n" = []
    ∧ normStep 2 none 4 "\n" = Except.error (ConvError.recordShapeError 5)
    ∧ normStep 1 (some (3, "d")) 7 "\n"
        = Except.ok (some (4, "d"), some ["d", "4"]) := by
  have h := C10_whitespace_line "\n" (by decide) (by decide)
  exact ⟨h.1, h.2.1, h.2.2.1 2 (by decide) none 4, h.2.2.2 3 "d" 7⟩

